import Mathlib

/-
Verification development for the walking_tour repository.

Shallow embedding of src/route_planner.py and src/poi_scorer.py.
Python floats are modelled as real numbers; Python dicts for POIs are
modelled as structures with Option-valued fields for keys that may be
absent; a raised KeyError is modelled by an Option-valued function
returning none; the module-level optional import of poi_scorer is
modelled by an Option-valued scoring capability parameter.
Python round(x, n) rounds half to even; the model pyRound rounds halves
upward, which agrees with the source except at exact midpoints, and no
theorem below depends on midpoint behaviour.
-/

namespace WalkingTour

/-- A (lat, lng) coordinate pair, as the Python tuples. -/
abbrev LatLng : Type := ℝ × ℝ

/-- Constant WALKING_SPEED_KMH = 5.0 from route_planner.py. -/
noncomputable def WALKING_SPEED_KMH : ℝ := 5.0

/-- Constant DEFAULT_VISIT_TIME_MINUTES = 5 from route_planner.py. -/
def DEFAULT_VISIT_TIME_MINUTES : ℤ := 5

/-- Constant EARTH_RADIUS_KM = 6371.0 from route_planner.py. -/
noncomputable def EARTH_RADIUS_KM : ℝ := 6371.0

/-- math.radians: degrees to radians. -/
noncomputable def radians (x : ℝ) : ℝ := x * Real.pi / 180

/-- calculate_distance from route_planner.py: haversine great-circle
distance in kilometers between two (lat, lng) points. -/
noncomputable def calculate_distance (coord1 coord2 : LatLng) : ℝ :=
  let lat1 := coord1.1
  let lng1 := coord1.2
  let lat2 := coord2.1
  let lng2 := coord2.2
  let lat1_rad := radians lat1
  let lat2_rad := radians lat2
  let dlat := radians (lat2 - lat1)
  let dlng := radians (lng2 - lng1)
  let a := Real.sin (dlat / 2) ^ 2 +
    Real.cos lat1_rad * Real.cos lat2_rad * Real.sin (dlng / 2) ^ 2
  let c := 2 * Real.arcsin (Real.sqrt a)
  EARTH_RADIUS_KM * c

/-- estimate_walking_time from route_planner.py: minutes of walking for a
distance in kilometers at WALKING_SPEED_KMH. -/
noncomputable def estimate_walking_time (distance_km : ℝ) : ℝ :=
  let hours := distance_km / WALKING_SPEED_KMH
  hours * 60

/-- The geo sub-dictionary of a POI; lat and lng keys may be absent. -/
structure GeoDict where
  lat : Option ℝ
  lng : Option ℝ

/-- A POI record, as the dict-shaped inputs of the planner and scorer.
The id key is always present (required by the data model); the other
keys may be absent. -/
structure POI where
  id : String
  geo : Option GeoDict
  vibe_tags : Option (List String)
  facts : Option (List String)
  visual_cues : Option (List String)
  source_reliability : Option ℝ

/-- The coordinates of a POI, when geo, geo.lat and geo.lng are all
present: exactly the condition checked by both planners, and exactly the
keys read by the unguarded accesses in score_poi. -/
def coordsOf (poi : POI) : Option LatLng :=
  match poi.geo with
  | none => none
  | some g =>
    match g.lat, g.lng with
    | some la, some ln => some (la, ln)
    | _, _ => none

/-- The weaker eligibility test of rank_pois in poi_scorer.py: only the
presence of geo and geo.lat is checked, not geo.lng. -/
def latCheck (poi : POI) : Bool :=
  match poi.geo with
  | none => false
  | some g => g.lat.isSome

/-- Python round(x, ndigits), modelled with the mathlib integer round. -/
noncomputable def pyRound (x : ℝ) (ndigits : ℕ) : ℝ :=
  ((round (x * 10 ^ ndigits) : ℤ) : ℝ) / 10 ^ ndigits

/-- One entry of the USER_PROFILES registry in poi_scorer.py. -/
structure UserProfile where
  interests : List String
  description : String

/-- The fixed USER_PROFILES registry from poi_scorer.py. -/
def USER_PROFILES : List (String × UserProfile) :=
  [("history_lover",
    ⟨["history", "medieval", "military", "political", "victorian"],
     "Loves historical sites, dates, and significant events"⟩),
   ("ghost_hunter",
    ⟨["haunted", "mysterious", "ruins", "religious", "dramatic"],
     "Fascinated by spooky stories, legends, and atmospheric locations"⟩),
   ("architecture_fan",
    ⟨["architecture", "georgian", "engineering", "folly", "medieval"],
     "Appreciates building design, construction, and architectural styles"⟩),
   ("nature_seeker",
    ⟨["nature", "scenic", "picturesque", "peaceful", "romantic"],
     "Enjoys natural beauty, viewpoints, and tranquil settings"⟩),
   ("culture_enthusiast",
    ⟨["culture", "arts", "educational", "local", "social"],
     "Interested in arts, museums, local culture, and community"⟩),
   ("casual_tourist",
    ⟨["history", "architecture", "scenic", "culture", "picturesque"],
     "Balanced mix of popular tourist attractions"⟩)]

/-- Scoring weights (alpha, beta, delta) from poi_scorer.py. -/
structure Weights where
  alpha : ℝ
  beta : ℝ
  delta : ℝ

/-- DEFAULT_WEIGHTS from poi_scorer.py. -/
noncomputable def DEFAULT_WEIGHTS : Weights :=
  { alpha := 0.6, beta := 0.3, delta := 0.1 }

/-- The profile-to-interests resolution shared by rank_pois and
plan_route_with_preferences: a registered profile gives its interests,
any other name falls back to the casual_tourist interests. -/
def interestsFor (user_profile : String) : List String :=
  match USER_PROFILES.lookup user_profile with
  | some p => p.interests
  | none => (((USER_PROFILES.lookup "casual_tourist").getD ⟨[], ""⟩)).interests

/-- calculate_interest_match from poi_scorer.py: Jaccard similarity of
the lowercased vibe tags against the lowercased user interests. -/
noncomputable def calculate_interest_match (poi : POI) (user_interests : List String) : ℝ :=
  match poi.vibe_tags with
  | none => 0.0
  | some tags =>
    if tags.isEmpty then 0.0
    else
      let poi_tags := (tags.map String.toLower).toFinset
      let user_tags := (user_interests.map String.toLower).toFinset
      if poi_tags = ∅ ∨ user_tags = ∅ then 0.0
      else
        let inter := (poi_tags ∩ user_tags).card
        let union := (poi_tags ∪ user_tags).card
        if 0 < union then (inter : ℝ) / (union : ℝ) else 0.0

/-- The truthiness test on the facts key used by
calculate_popularity_score. -/
def hasFacts (poi : POI) : Bool :=
  match poi.facts with
  | none => false
  | some l => !l.isEmpty

/-- The truthiness test on the visual_cues key used by
calculate_popularity_score. -/
def hasVisualCues (poi : POI) : Bool :=
  match poi.visual_cues with
  | none => false
  | some l => !l.isEmpty

/-- calculate_popularity_score from poi_scorer.py. -/
noncomputable def calculate_popularity_score (poi : POI) : ℝ :=
  let score0 : ℝ := 0.5
  let score1 := if hasFacts poi then score0 + 0.3 else score0
  let score2 := if hasVisualCues poi then score1 + 0.1 else score1
  let score3 :=
    match poi.source_reliability with
    | some r => max score2 r
    | none => score2
  min score3 1.0

/-- calculate_distance_penalty from poi_scorer.py (max_distance is its
default value 2.0 at every call site). -/
noncomputable def calculate_distance_penalty (distance_km : ℝ) (max_distance : ℝ) : ℝ :=
  min (distance_km / max_distance) 1.0

/-- The components dictionary produced by score_poi. -/
structure ScoreComponents where
  interest_match : ℝ
  popularity : ℝ
  distance_km : ℝ
  distance_penalty : ℝ

/-- The result dictionary of score_poi. -/
structure ScoredPoi where
  poi : POI
  score : ℝ
  components : ScoreComponents

/-- score_poi from poi_scorer.py. The unguarded accesses to geo.lat and
geo.lng raise KeyError when a key is absent, modelled as none. -/
noncomputable def score_poi (poi : POI) (user_interests : List String)
    (current_position : LatLng) (weights : Option Weights) : Option ScoredPoi :=
  let w := weights.getD DEFAULT_WEIGHTS
  match coordsOf poi with
  | none => none
  | some poi_coords =>
    let distance := calculate_distance current_position poi_coords
    let interest_match := calculate_interest_match poi user_interests
    let popularity := calculate_popularity_score poi
    let distance_penalty := calculate_distance_penalty distance 2.0
    some { poi := poi,
           score := w.alpha * interest_match + w.beta * popularity -
             w.delta * distance_penalty,
           components :=
             ⟨interest_match, popularity, distance, distance_penalty⟩ }

/-- The scoring pass of rank_pois: candidates failing the lat-only
eligibility check are skipped; a KeyError inside score_poi aborts the
whole call. -/
noncomputable def scoreAll (candidate_pois : List POI) (interests : List String)
    (current_position : LatLng) (weights : Option Weights) : Option (List ScoredPoi) :=
  match candidate_pois with
  | [] => some []
  | poi :: rest =>
    if latCheck poi then
      match score_poi poi interests current_position weights with
      | none => none
      | some s => (scoreAll rest interests current_position weights).map (fun l => s :: l)
    else scoreAll rest interests current_position weights

/-- One insertion step of the stable descending sort: the new element is
placed before the first element whose score is not greater. -/
noncomputable def insertDesc (x : ScoredPoi) : List ScoredPoi → List ScoredPoi
  | [] => [x]
  | y :: ys => if y.score > x.score then y :: insertDesc x ys else x :: y :: ys

/-- The stable descending-by-score sort performed by
scored_pois.sort(key, reverse) in rank_pois: elements of equal score
keep their input order. -/
noncomputable def sortDesc : List ScoredPoi → List ScoredPoi
  | [] => []
  | x :: xs => insertDesc x (sortDesc xs)

/-- rank_pois from poi_scorer.py. A none result models an uncaught
KeyError raised while scoring a candidate that passed the lat-only
eligibility check but lacks geo.lng. -/
noncomputable def rank_pois (candidate_pois : List POI) (user_profile : String)
    (current_position : LatLng) (weights : Option Weights) (top_n : Option ℕ) :
    Option (List ScoredPoi) :=
  let interests := interestsFor user_profile
  match scoreAll candidate_pois interests current_position weights with
  | none => none
  | some scored_pois =>
    let sorted := sortDesc scored_pois
    some (match top_n with
          | some n => sorted.take n
          | none => sorted)

/-- The nearest candidate selected by one scan of the plan_route loop:
the POI, its coordinates and its distance from the current position. -/
structure NearSel where
  poi : POI
  coords : LatLng
  dist : ℝ

/-- One stop of a planned route. -/
structure Stop where
  poi : POI
  distance_from_previous_km : ℝ
  walking_time_minutes : ℝ

/-- The mutable state of the plan_route selection loop. -/
structure LoopState where
  route : List Stop
  visited : List String
  pos : LatLng
  time_used : ℝ
  total_distance : ℝ

/-- The inner for-loop of plan_route: scan the candidates, skipping
visited POIs and POIs without full coordinates, keeping the strictly
nearest one seen so far (the accumulator none models the initial
infinite nearest_distance, which every real distance beats). -/
noncomputable def findNearest (current : LatLng) (visited : List String) :
    List POI → Option NearSel → Option NearSel
  | [], best => best
  | poi :: rest, best =>
    if poi.id ∈ visited then findNearest current visited rest best
    else
      match coordsOf poi with
      | none => findNearest current visited rest best
      | some c =>
        let d := calculate_distance current c
        match best with
        | none => findNearest current visited rest (some ⟨poi, c, d⟩)
        | some b =>
          if d < b.dist then findNearest current visited rest (some ⟨poi, c, d⟩)
          else findNearest current visited rest best

/-- The while-loop of plan_route, fuelled by the number of candidates:
each committed stop visits a previously unvisited candidate id, so the
loop can iterate at most that many times before findNearest returns
none. -/
noncomputable def planLoop (duration_minutes visit_time_per_poi : ℝ)
    (candidate_pois : List POI) : ℕ → LoopState → LoopState
  | 0, s => s
  | fuel + 1, s =>
    match findNearest s.pos s.visited candidate_pois none with
    | none => s
    | some sel =>
      let walking_time := estimate_walking_time sel.dist
      let total_time_needed := walking_time + visit_time_per_poi
      if s.time_used + total_time_needed > duration_minutes then s
      else planLoop duration_minutes visit_time_per_poi candidate_pois fuel
        { route := s.route ++ [⟨sel.poi, sel.dist, walking_time⟩],
          visited := s.visited ++ [sel.poi.id],
          pos := sel.coords,
          time_used := s.time_used + total_time_needed,
          total_distance := s.total_distance + sel.dist }

/-- The whole selection loop of plan_route, started from the initial
state. -/
noncomputable def planLoopFull (start_coords : LatLng) (candidate_pois : List POI)
    (duration_minutes visit_time_per_poi : ℤ) : LoopState :=
  planLoop (duration_minutes : ℝ) (visit_time_per_poi : ℝ) candidate_pois
    candidate_pois.length
    { route := [], visited := [], pos := start_coords, time_used := 0, total_distance := 0 }

/-- The totals produced by the return-to-start block of plan_route:
final total_distance, final time_used, return_distance, return_time. -/
structure PostLeg where
  total_distance : ℝ
  time_used : ℝ
  return_distance : ℝ
  return_time : ℝ

/-- The return-to-start block of plan_route: the return leg is computed
when requested and the route is nonempty, and is added to the totals
only when it fits the remaining budget; return_distance keeps the
computed value even when the leg is not added. -/
noncomputable def returnLeg (start_coords : LatLng) (duration_minutes : ℤ)
    (return_to_start : Bool) (s : LoopState) : PostLeg :=
  if return_to_start = true ∧ 0 < s.route.length then
    let return_distance := calculate_distance s.pos start_coords
    let return_time := estimate_walking_time return_distance
    if s.time_used + return_time ≤ (duration_minutes : ℝ) then
      ⟨s.total_distance + return_distance, s.time_used + return_time,
       return_distance, return_time⟩
    else
      ⟨s.total_distance, s.time_used, return_distance, return_time⟩
  else
    ⟨s.total_distance, s.time_used, 0, 0⟩

/-- The result dictionary of plan_route. -/
structure RouteResult where
  route : List Stop
  total_distance_km : ℝ
  total_time_minutes : ℝ
  walking_time_minutes : ℝ
  visit_time_minutes : ℤ
  pois_visited : ℕ
  time_remaining : ℝ
  start_coords : LatLng
  return_to_start : Bool
  return_distance_km : ℝ

/-- plan_route from route_planner.py: greedy nearest-neighbor planning
under a time budget, with an optional return-to-start leg. -/
noncomputable def plan_route (start_coords : LatLng) (candidate_pois : List POI)
    (duration_minutes : ℤ) (visit_time_per_poi : ℤ) (return_to_start : Bool) :
    RouteResult :=
  let s := planLoopFull start_coords candidate_pois duration_minutes visit_time_per_poi
  let post := returnLeg start_coords duration_minutes return_to_start s
  let walking_time := (s.route.map (fun st => st.walking_time_minutes)).sum + post.return_time
  { route := s.route,
    total_distance_km := pyRound post.total_distance 2,
    total_time_minutes := pyRound post.time_used 1,
    walking_time_minutes := pyRound walking_time 1,
    visit_time_minutes := (s.route.length : ℤ) * visit_time_per_poi,
    pois_visited := s.route.length,
    time_remaining := (duration_minutes : ℝ) - post.time_used,
    start_coords := start_coords,
    return_to_start := return_to_start,
    return_distance_km := if return_to_start = true then pyRound post.return_distance 2 else 0 }

/-- The type of the optional scoring capability: the score_poi function
made available by the try/except import of poi_scorer in
route_planner.py, or none when the import failed. -/
def ScoreFn : Type :=
  POI → List String → LatLng → Option Weights → Option ScoredPoi

/-- The best candidate selected by one scan of the
plan_route_with_preferences loop. -/
structure BestSel where
  poi : POI
  coords : LatLng
  score : ℝ
  dist : ℝ

/-- The mutable state of the plan_route_with_preferences loop. -/
structure LoopStateP where
  route : List Stop
  poi_scores : List ℝ
  visited : List String
  pos : LatLng
  time_used : ℝ
  total_distance : ℝ

/-- The inner for-loop of plan_route_with_preferences: scan unvisited
candidates with full coordinates, keeping the strictly highest-scoring
one (the accumulator none models the initial best_score of negative
infinity). The scoring call cannot raise here because the candidate
filter has already checked geo, geo.lat and geo.lng, so the none branch
of the scorer is unreachable and is skipped. -/
noncomputable def findBest (f : ScoreFn) (interests : List String) (current : LatLng)
    (weights : Option Weights) (visited : List String) :
    List POI → Option BestSel → Option BestSel
  | [], best => best
  | poi :: rest, best =>
    if poi.id ∈ visited then findBest f interests current weights visited rest best
    else
      match coordsOf poi with
      | none => findBest f interests current weights visited rest best
      | some c =>
        match f poi interests current weights with
        | none => findBest f interests current weights visited rest best
        | some scored =>
          match best with
          | none => findBest f interests current weights visited rest
              (some ⟨poi, c, scored.score, scored.components.distance_km⟩)
          | some b =>
            if scored.score > b.score then
              findBest f interests current weights visited rest
                (some ⟨poi, c, scored.score, scored.components.distance_km⟩)
            else findBest f interests current weights visited rest best

/-- The while-loop of plan_route_with_preferences, fuelled like
planLoop. -/
noncomputable def planLoopP (f : ScoreFn) (interests : List String)
    (weights : Option Weights) (duration_minutes visit_time_per_poi : ℝ)
    (candidate_pois : List POI) : ℕ → LoopStateP → LoopStateP
  | 0, s => s
  | fuel + 1, s =>
    match findBest f interests s.pos weights s.visited candidate_pois none with
    | none => s
    | some sel =>
      let walking_time := estimate_walking_time sel.dist
      let total_time_needed := walking_time + visit_time_per_poi
      if s.time_used + total_time_needed > duration_minutes then s
      else planLoopP f interests weights duration_minutes visit_time_per_poi
        candidate_pois fuel
        { route := s.route ++ [⟨sel.poi, sel.dist, walking_time⟩],
          poi_scores := s.poi_scores ++ [sel.score],
          visited := s.visited ++ [sel.poi.id],
          pos := sel.coords,
          time_used := s.time_used + total_time_needed,
          total_distance := s.total_distance + sel.dist }

/-- The result dictionary of plan_route_with_preferences. -/
structure RouteResultP where
  route : List Stop
  total_distance_km : ℝ
  total_time_minutes : ℝ
  walking_time_minutes : ℝ
  visit_time_minutes : ℤ
  pois_visited : ℕ
  time_remaining : ℝ
  start_coords : LatLng
  return_to_start : Bool
  return_distance_km : ℝ
  user_profile : String
  poi_scores : List ℝ

/-- A LoopStateP viewed as a LoopState, for reusing the return-leg
block. -/
def LoopStateP.toLoopState (s : LoopStateP) : LoopState :=
  ⟨s.route, s.visited, s.pos, s.time_used, s.total_distance⟩

/-- The body of plan_route_with_preferences after the capability check:
identical to plan_route except that selection is by score and that the
profile name and the per-stop scores are recorded in the result. -/
noncomputable def planPrefsCore (f : ScoreFn) (interests : List String)
    (start_coords : LatLng) (candidate_pois : List POI)
    (duration_minutes : ℤ) (user_profile : String) (visit_time_per_poi : ℤ)
    (return_to_start : Bool) (scoring_weights : Option Weights) : RouteResultP :=
  let weights := scoring_weights.getD DEFAULT_WEIGHTS
  let s := planLoopP f interests (some weights) (duration_minutes : ℝ)
    (visit_time_per_poi : ℝ) candidate_pois candidate_pois.length
    { route := [], poi_scores := [], visited := [], pos := start_coords,
      time_used := 0, total_distance := 0 }
  let post := returnLeg start_coords duration_minutes return_to_start s.toLoopState
  let walking_time := (s.route.map (fun st => st.walking_time_minutes)).sum + post.return_time
  { route := s.route,
    total_distance_km := pyRound post.total_distance 2,
    total_time_minutes := pyRound post.time_used 1,
    walking_time_minutes := pyRound walking_time 1,
    visit_time_minutes := (s.route.length : ℤ) * visit_time_per_poi,
    pois_visited := s.route.length,
    time_remaining := (duration_minutes : ℝ) - post.time_used,
    start_coords := start_coords,
    return_to_start := return_to_start,
    return_distance_km := if return_to_start = true then pyRound post.return_distance 2 else 0,
    user_profile := user_profile,
    poi_scores := s.poi_scores }

/-- plan_route_with_preferences from route_planner.py. The first
argument is the optional scoring capability installed by the module
import; when it is none the function raises ImportError, modelled as an
error result. -/
noncomputable def plan_route_with_preferences (score_poi_cap : Option ScoreFn)
    (start_coords : LatLng) (candidate_pois : List POI) (duration_minutes : ℤ)
    (user_profile : String) (visit_time_per_poi : ℤ) (return_to_start : Bool)
    (scoring_weights : Option Weights) : Except String RouteResultP :=
  match score_poi_cap with
  | none => .error "poi_scorer module required for preference-based routing"
  | some f =>
    let interests := interestsFor user_profile
    .ok (planPrefsCore f interests start_coords candidate_pois duration_minutes
      user_profile visit_time_per_poi return_to_start scoring_weights)

/-- A test POI on the equator at longitude 180, antipodal to the origin
along the equator. -/
noncomputable def poiFar : POI :=
  { id := "far", geo := some ⟨some 0, some 180⟩, vibe_tags := none,
    facts := none, visual_cues := none, source_reliability := none }

/-- A test POI whose geo dictionary has lat but no lng: it passes the
lat-only eligibility check of rank_pois but makes score_poi raise. -/
def poiLatOnly : POI :=
  { id := "latOnly", geo := some ⟨some (0 : ℝ), none⟩, vibe_tags := none,
    facts := none, visual_cues := none, source_reliability := none }

/-- A second lat-but-no-lng POI, used at a different call. -/
def poiLatOnly2 : POI :=
  { id := "latOnly2", geo := some ⟨some (1 : ℝ), none⟩, vibe_tags := none,
    facts := none, visual_cues := none, source_reliability := none }

/-- What claim C2 asserts about a selection sel returned by the
candidate scan from state s: sel is an unvisited candidate with full
coordinates, at minimum great-circle distance from the current position
among all such candidates, it is the first candidate attaining that
minimum, and if the time for sel does not fit the budget the whole loop
stops at s. -/
def nearestSelectionSpec (candidate_pois : List POI) (s : LoopState)
    (duration_minutes visit_time_per_poi : ℤ) (fuel : ℕ) (sel : NearSel) : Prop :=
  sel.poi ∈ candidate_pois ∧
  sel.poi.id ∉ s.visited ∧
  coordsOf sel.poi = some sel.coords ∧
  sel.dist = calculate_distance s.pos sel.coords ∧
  (∀ q ∈ candidate_pois, q.id ∉ s.visited → ∀ qc, coordsOf q = some qc →
    sel.dist ≤ calculate_distance s.pos qc) ∧
  (∃ pre post, candidate_pois = pre ++ sel.poi :: post ∧
    ∀ q ∈ pre, q.id ∉ s.visited → ∀ qc, coordsOf q = some qc →
      sel.dist < calculate_distance s.pos qc) ∧
  (s.time_used + (estimate_walking_time sel.dist + (visit_time_per_poi : ℝ)) >
      (duration_minutes : ℝ) →
    planLoop (duration_minutes : ℝ) (visit_time_per_poi : ℝ) candidate_pois (fuel + 1) s = s)

/-- What the amended claim C3 asserts about the return-to-start block of
plan_route for a given input whose selection loop produced at least one
stop: with rd the return distance and rt the return walking time from
the final loop state, the totals include rd and rt exactly when the leg
fits the remaining budget, and the reported return_distance_km is the
rounded rd in both cases. -/
def returnLegObservation (start_coords : LatLng) (candidate_pois : List POI)
    (duration_minutes visit_time_per_poi : ℤ) : Prop :=
  let s := planLoopFull start_coords candidate_pois duration_minutes visit_time_per_poi
  let rd := calculate_distance s.pos start_coords
  let rt := estimate_walking_time rd
  let res := plan_route start_coords candidate_pois duration_minutes visit_time_per_poi true
  (s.time_used + rt ≤ (duration_minutes : ℝ) →
    res.total_distance_km = pyRound (s.total_distance + rd) 2 ∧
    res.total_time_minutes = pyRound (s.time_used + rt) 1) ∧
  (¬ s.time_used + rt ≤ (duration_minutes : ℝ) →
    res.total_distance_km = pyRound s.total_distance 2 ∧
    res.total_time_minutes = pyRound s.time_used 1) ∧
  res.return_distance_km = pyRound rd 2

/-- What the amended claim C4 asserts about rank_pois on a candidate
list whose lat-eligible members all carry full coordinates: the call
succeeds, every lat-eligible candidate is scored in input order, the
result without top_n is a permutation of the scored list sorted
descending by score with ties kept in input order (stated by filtering
on any fixed score), and a given top_n truncates that result to at most
top_n entries. -/
def rankedObservation (candidate_pois : List POI) (user_profile : String)
    (current_position : LatLng) (weights : Option Weights) : Prop :=
  ∃ S L,
    scoreAll candidate_pois (interestsFor user_profile) current_position weights = some S ∧
    rank_pois candidate_pois user_profile current_position weights none = some L ∧
    S.map (fun x => x.poi) = candidate_pois.filter latCheck ∧
    List.Sorted (fun a b => b.score ≤ a.score) L ∧
    L.Perm S ∧
    (∀ sc : ℝ, L.filter (fun x => decide (x.score = sc)) =
      S.filter (fun x => decide (x.score = sc))) ∧
    (∀ n : ℕ, rank_pois candidate_pois user_profile current_position weights (some n) =
        some (L.take n) ∧ (L.take n).length ≤ n)

/-- What the amended claim C1 asserts for a nonnegative duration budget:
the accumulated time_used never exceeds the budget at any point of the
selection loop, and the reported total_time_minutes, which includes the
optional return leg, is at most the budget. -/
def budgetObservation (start_coords : LatLng) (candidate_pois : List POI)
    (duration_minutes visit_time_per_poi : ℤ) (return_to_start : Bool) : Prop :=
  (∀ (fuel : ℕ) (s0 : LoopState), s0.time_used ≤ (duration_minutes : ℝ) →
    (planLoop (duration_minutes : ℝ) (visit_time_per_poi : ℝ) candidate_pois fuel
        s0).time_used ≤ (duration_minutes : ℝ)) ∧
  (plan_route start_coords candidate_pois duration_minutes visit_time_per_poi
      return_to_start).total_time_minutes ≤ (duration_minutes : ℝ)

/-- The haversine distance is nonnegative for every pair of inputs. -/
theorem calculate_distance_nonneg (a b : LatLng) : 0 ≤ calculate_distance a b := by
  simp only [calculate_distance]
  have h1 : (0:ℝ) ≤ Real.arcsin (Real.sqrt (Real.sin (radians (b.1 - a.1) / 2) ^ 2 +
      Real.cos (radians a.1) * Real.cos (radians b.1) * Real.sin (radians (b.2 - a.2) / 2) ^ 2)) :=
    Real.arcsin_nonneg.mpr (Real.sqrt_nonneg _)
  have h2 : (0:ℝ) ≤ EARTH_RADIUS_KM := by unfold EARTH_RADIUS_KM; norm_num
  nlinarith [h1, h2]

/-- The haversine distance is symmetric in its two arguments. -/
theorem calculate_distance_symm (a b : LatLng) :
    calculate_distance a b = calculate_distance b a := by
  have hs : ∀ x y : ℝ, Real.sin (radians (x - y) / 2) ^ 2 =
      Real.sin (radians (y - x) / 2) ^ 2 := by
    intro x y
    have h : radians (x - y) = -(radians (y - x)) := by unfold radians; ring
    rw [h, neg_div, Real.sin_neg, neg_sq]
  simp only [calculate_distance]
  rw [hs b.1 a.1, hs b.2 a.2]
  ring_nf

/-- The haversine distance from any point to itself is zero. -/
theorem calculate_distance_self (a : LatLng) : calculate_distance a a = 0 := by
  have e0 : radians (a.1 - a.1) / 2 = 0 := by unfold radians; ring
  have e2 : radians (a.2 - a.2) / 2 = 0 := by unfold radians; ring
  simp only [calculate_distance]
  rw [e0, e2, Real.sin_zero]
  norm_num

/-- Concrete distance along the equator from longitude 0 to longitude
180: half the circumference of the model sphere. -/
theorem calculate_distance_far : calculate_distance (0, 0) (0, 180) = 6371 * Real.pi := by
  have e1 : radians (0 - 0) / 2 = 0 := by unfold radians; ring
  have e2 : radians ((180:ℝ) - 0) / 2 = Real.pi / 2 := by unfold radians; ring
  have e3 : radians (0:ℝ) = 0 := by unfold radians; ring
  simp only [calculate_distance]
  rw [e1, e2, e3, Real.sin_zero, Real.cos_zero, Real.sin_pi_div_two]
  norm_num [EARTH_RADIUS_KM, Real.sqrt_one, Real.arcsin_one]
  ring

/-- Concrete distance back from (0, 180) to the origin. -/
theorem calculate_distance_far_back :
    calculate_distance (0, 180) (0, 0) = 6371 * Real.pi := by
  rw [calculate_distance_symm, calculate_distance_far]

/-- Rounding to decimals never pushes a value past an integer bound. -/
theorem pyRound_le_intCast (n : ℕ) {x : ℝ} {d : ℤ} (h : x ≤ (d:ℝ)) :
    pyRound x n ≤ (d:ℝ) := by
  unfold pyRound
  have hpow : (0:ℝ) < 10 ^ n := by positivity
  have h1 : round (x * 10 ^ n) ≤ d * 10 ^ n := by
    rw [round_eq]
    have hle : x * 10 ^ n + 1/2 ≤ (d:ℝ) * 10 ^ n + 1/2 := by nlinarith
    calc ⌊x * 10 ^ n + 1/2⌋ ≤ ⌊(d:ℝ) * 10 ^ n + 1/2⌋ := Int.floor_mono hle
      _ = d * 10 ^ n := by
          rw [show ((d:ℝ) * 10 ^ n) = ((d * 10 ^ n : ℤ) : ℝ) by push_cast; ring]
          rw [add_comm, Int.floor_add_int]
          norm_num
  calc ((round (x * 10 ^ n) : ℤ) : ℝ) / 10 ^ n ≤ ((d * 10 ^ n : ℤ) : ℝ) / 10 ^ n := by
        gcongr
    _ = (d:ℝ) := by push_cast; field_simp

/-- Rounding a value that is at least one gives a positive result. -/
theorem pyRound_pos (n : ℕ) {x : ℝ} (h : 1 ≤ x) : 0 < pyRound x n := by
  unfold pyRound
  have hpow : (0:ℝ) < 10 ^ n := by positivity
  have h10 : (1:ℝ) ≤ 10 ^ n := by
    calc (1:ℝ) = 1 ^ n := (one_pow n).symm
      _ ≤ 10 ^ n := by gcongr; norm_num
  have h1 : (1:ℤ) ≤ round (x * 10 ^ n) := by
    rw [round_eq, Int.le_floor]
    have hx : (1:ℝ) ≤ x * 10 ^ n := by nlinarith
    push_cast
    linarith
  have h2 : (1:ℝ) ≤ ((round (x * 10 ^ n) : ℤ) : ℝ) := by exact_mod_cast h1
  positivity

/-- Rounding zero gives zero. -/
theorem pyRound_zero (n : ℕ) : pyRound 0 n = 0 := by
  simp [pyRound]

/-- A selection returned by the candidate scan either is the incoming
accumulator or is an unvisited candidate from the list, carrying its own
coordinates and its distance from the current position. -/
theorem findNearest_from (cur : LatLng) (vis : List String) :
    ∀ (l : List POI) (best : Option NearSel) (r : NearSel),
      findNearest cur vis l best = some r →
      best = some r ∨
        (r.poi ∈ l ∧ r.poi.id ∉ vis ∧ coordsOf r.poi = some r.coords ∧
         r.dist = calculate_distance cur r.coords) := by
  intro l
  induction l with
  | nil =>
    intro best r h
    simp only [findNearest] at h
    exact Or.inl h
  | cons poi rest ih =>
    intro best r h
    simp only [findNearest] at h
    by_cases hv : poi.id ∈ vis
    · rw [if_pos hv] at h
      rcases ih best r h with h1 | h1
      · exact Or.inl h1
      · exact Or.inr ⟨List.mem_cons_of_mem _ h1.1, h1.2⟩
    · rw [if_neg hv] at h
      cases hc : coordsOf poi with
      | none =>
        simp only [hc] at h
        rcases ih best r h with h1 | h1
        · exact Or.inl h1
        · exact Or.inr ⟨List.mem_cons_of_mem _ h1.1, h1.2⟩
      | some c =>
        simp only [hc] at h
        cases best with
        | none =>
          simp only at h
          rcases ih _ r h with h1 | h1
          · obtain rfl : (⟨poi, c, calculate_distance cur c⟩ : NearSel) = r :=
              Option.some.inj h1
            exact Or.inr ⟨List.mem_cons_self _ _, hv, hc, rfl⟩
          · exact Or.inr ⟨List.mem_cons_of_mem _ h1.1, h1.2⟩
        | some b =>
          simp only at h
          by_cases hd : calculate_distance cur c < b.dist
          · rw [if_pos hd] at h
            rcases ih _ r h with h1 | h1
            · obtain rfl : (⟨poi, c, calculate_distance cur c⟩ : NearSel) = r :=
                Option.some.inj h1
              exact Or.inr ⟨List.mem_cons_self _ _, hv, hc, rfl⟩
            · exact Or.inr ⟨List.mem_cons_of_mem _ h1.1, h1.2⟩
          · rw [if_neg hd] at h
            rcases ih _ r h with h1 | h1
            · exact Or.inl h1
            · exact Or.inr ⟨List.mem_cons_of_mem _ h1.1, h1.2⟩

/-- A selection returned by the candidate scan has distance no larger
than the incoming accumulator and than every unvisited candidate with
full coordinates in the list. -/
theorem findNearest_min (cur : LatLng) (vis : List String) :
    ∀ (l : List POI) (best : Option NearSel) (r : NearSel),
      findNearest cur vis l best = some r →
      (∀ b, best = some b → r.dist ≤ b.dist) ∧
      (∀ q ∈ l, q.id ∉ vis → ∀ qc, coordsOf q = some qc →
        r.dist ≤ calculate_distance cur qc) := by
  intro l
  induction l with
  | nil =>
    intro best r h
    simp only [findNearest] at h
    constructor
    · intro b hb
      rw [h] at hb
      obtain rfl := Option.some.inj hb
      exact le_refl _
    · intro q hq
      exact absurd hq (List.not_mem_nil q)
  | cons poi rest ih =>
    intro best r h
    simp only [findNearest] at h
    by_cases hv : poi.id ∈ vis
    · rw [if_pos hv] at h
      obtain ⟨hb, hrest⟩ := ih best r h
      refine ⟨hb, ?_⟩
      intro q hq hqv qc hqc
      rcases List.mem_cons.mp hq with rfl | hq2
      · exact absurd hv hqv
      · exact hrest q hq2 hqv qc hqc
    · rw [if_neg hv] at h
      cases hc : coordsOf poi with
      | none =>
        simp only [hc] at h
        obtain ⟨hb, hrest⟩ := ih best r h
        refine ⟨hb, ?_⟩
        intro q hq hqv qc hqc
        rcases List.mem_cons.mp hq with rfl | hq2
        · rw [hc] at hqc; exact absurd hqc (Option.noConfusion)
        · exact hrest q hq2 hqv qc hqc
      | some c =>
        simp only [hc] at h
        cases best with
        | none =>
          simp only at h
          obtain ⟨hb, hrest⟩ := ih _ r h
          constructor
          · intro b hb2
            exact absurd hb2 (Option.noConfusion)
          · intro q hq hqv qc hqc
            rcases List.mem_cons.mp hq with rfl | hq2
            · rw [hc] at hqc
              obtain rfl := Option.some.inj hqc
              exact hb _ rfl
            · exact hrest q hq2 hqv qc hqc
        | some b0 =>
          simp only at h
          by_cases hd : calculate_distance cur c < b0.dist
          · rw [if_pos hd] at h
            obtain ⟨hb, hrest⟩ := ih _ r h
            have hrd : r.dist ≤ calculate_distance cur c := hb _ rfl
            constructor
            · intro b hb2
              obtain rfl := Option.some.inj hb2
              exact le_trans hrd (le_of_lt hd)
            · intro q hq hqv qc hqc
              rcases List.mem_cons.mp hq with rfl | hq2
              · rw [hc] at hqc
                obtain rfl := Option.some.inj hqc
                exact hrd
              · exact hrest q hq2 hqv qc hqc
          · rw [if_neg hd] at h
            obtain ⟨hb, hrest⟩ := ih _ r h
            have hrd : r.dist ≤ b0.dist := hb _ rfl
            constructor
            · intro b hb2
              obtain rfl := Option.some.inj hb2
              exact hrd
            · intro q hq hqv qc hqc
              rcases List.mem_cons.mp hq with rfl | hq2
              · rw [hc] at hqc
                obtain rfl := Option.some.inj hqc
                exact le_trans hrd (not_lt.mp hd)
              · exact hrest q hq2 hqv qc hqc

/-- A selection returned by the candidate scan from an empty accumulator
is the first candidate attaining the minimum distance: every unvisited
candidate with full coordinates strictly before it in the list is
strictly farther, because replacement uses a strict comparison. -/
theorem findNearest_first (cur : LatLng) (vis : List String) :
    ∀ (l : List POI) (best : Option NearSel) (r : NearSel),
      findNearest cur vis l best = some r →
      best = some r ∨
        ∃ pre post, l = pre ++ r.poi :: post ∧
          (∀ b, best = some b → r.dist < b.dist) ∧
          (∀ q ∈ pre, q.id ∉ vis → ∀ qc, coordsOf q = some qc →
            r.dist < calculate_distance cur qc) := by
  intro l
  induction l with
  | nil =>
    intro best r h
    simp only [findNearest] at h
    exact Or.inl h
  | cons poi rest ih =>
    intro best r h
    simp only [findNearest] at h
    by_cases hv : poi.id ∈ vis
    · rw [if_pos hv] at h
      rcases ih best r h with h1 | ⟨pre, post, hsplit, hbest, hpre⟩
      · exact Or.inl h1
      · refine Or.inr ⟨poi :: pre, post, by rw [hsplit]; rfl, hbest, ?_⟩
        intro q hq hqv qc hqc
        rcases List.mem_cons.mp hq with rfl | hq2
        · exact absurd hv hqv
        · exact hpre q hq2 hqv qc hqc
    · rw [if_neg hv] at h
      cases hc : coordsOf poi with
      | none =>
        simp only [hc] at h
        rcases ih best r h with h1 | ⟨pre, post, hsplit, hbest, hpre⟩
        · exact Or.inl h1
        · refine Or.inr ⟨poi :: pre, post, by rw [hsplit]; rfl, hbest, ?_⟩
          intro q hq hqv qc hqc
          rcases List.mem_cons.mp hq with rfl | hq2
          · rw [hc] at hqc; exact absurd hqc (Option.noConfusion)
          · exact hpre q hq2 hqv qc hqc
      | some c =>
        simp only [hc] at h
        cases best with
        | none =>
          simp only at h
          rcases ih _ r h with h1 | ⟨pre, post, hsplit, hbest, hpre⟩
          · obtain rfl : (⟨poi, c, calculate_distance cur c⟩ : NearSel) = r :=
              Option.some.inj h1
            refine Or.inr ⟨[], rest, rfl, ?_, ?_⟩
            · intro b hb
              exact absurd hb (Option.noConfusion)
            · intro q hq
              exact absurd hq (List.not_mem_nil q)
          · have hlt : r.dist < calculate_distance cur c := hbest _ rfl
            refine Or.inr ⟨poi :: pre, post, by rw [hsplit]; rfl, ?_, ?_⟩
            · intro b hb
              exact absurd hb (Option.noConfusion)
            · intro q hq hqv qc hqc
              rcases List.mem_cons.mp hq with rfl | hq2
              · rw [hc] at hqc
                obtain rfl := Option.some.inj hqc
                exact hlt
              · exact hpre q hq2 hqv qc hqc
        | some b0 =>
          simp only at h
          by_cases hd : calculate_distance cur c < b0.dist
          · rw [if_pos hd] at h
            rcases ih _ r h with h1 | ⟨pre, post, hsplit, hbest, hpre⟩
            · obtain rfl : (⟨poi, c, calculate_distance cur c⟩ : NearSel) = r :=
                Option.some.inj h1
              refine Or.inr ⟨[], rest, rfl, ?_, ?_⟩
              · intro b hb
                obtain rfl := Option.some.inj hb
                exact hd
              · intro q hq
                exact absurd hq (List.not_mem_nil q)
            · have hlt : r.dist < calculate_distance cur c := hbest _ rfl
              refine Or.inr ⟨poi :: pre, post, by rw [hsplit]; rfl, ?_, ?_⟩
              · intro b hb
                obtain rfl := Option.some.inj hb
                exact lt_trans hlt hd
              · intro q hq hqv qc hqc
                rcases List.mem_cons.mp hq with rfl | hq2
                · rw [hc] at hqc
                  obtain rfl := Option.some.inj hqc
                  exact hlt
                · exact hpre q hq2 hqv qc hqc
          · rw [if_neg hd] at h
            rcases ih _ r h with h1 | ⟨pre, post, hsplit, hbest, hpre⟩
            · exact Or.inl h1
            · have hlt : r.dist < b0.dist := hbest _ rfl
              refine Or.inr ⟨poi :: pre, post, by rw [hsplit]; rfl, ?_, ?_⟩
              · intro b hb
                obtain rfl := Option.some.inj hb
                exact hlt
              · intro q hq hqv qc hqc
                rcases List.mem_cons.mp hq with rfl | hq2
                · rw [hc] at hqc
                  obtain rfl := Option.some.inj hqc
                  exact lt_of_lt_of_le hlt (not_lt.mp hd)
                · exact hpre q hq2 hqv qc hqc

/-- Walking time is nonnegative for a nonnegative distance. -/
theorem estimate_walking_time_nonneg {d : ℝ} (h : 0 ≤ d) : 0 ≤ estimate_walking_time d := by
  simp only [estimate_walking_time, WALKING_SPEED_KMH]
  nlinarith [h]

/-- When the selected candidate does not fit the remaining budget, the
selection loop stops at the current state. -/
theorem planLoop_break (dur visit : ℝ) (cands : List POI) (fuel : ℕ) (s : LoopState)
    (sel : NearSel) (hsel : findNearest s.pos s.visited cands none = some sel)
    (hover : s.time_used + (estimate_walking_time sel.dist + visit) > dur) :
    planLoop dur visit cands (fuel + 1) s = s := by
  simp only [planLoop, hsel]
  rw [if_pos hover]

/-- The loop invariant of plan_route: a state within the budget stays
within the budget for any amount of fuel. -/
theorem planLoop_time_le (dur visit : ℝ) (cands : List POI) :
    ∀ (fuel : ℕ) (s : LoopState), s.time_used ≤ dur →
      (planLoop dur visit cands fuel s).time_used ≤ dur := by
  intro fuel
  induction fuel with
  | zero =>
    intro s h
    simpa [planLoop] using h
  | succ n ih =>
    intro s h
    simp only [planLoop]
    cases hsel : findNearest s.pos s.visited cands none with
    | none => exact h
    | some sel =>
      simp only
      by_cases hover : s.time_used + (estimate_walking_time sel.dist + visit) > dur
      · rw [if_pos hover]
        exact h
      · rw [if_neg hover]
        exact ih _ (not_lt.mp hover)

/-- The return-to-start block never pushes time_used past the budget
when the loop state was within the budget. -/
theorem returnLeg_time_le (start : LatLng) (dur : ℤ) (rts : Bool) (s : LoopState)
    (h : s.time_used ≤ (dur:ℝ)) : (returnLeg start dur rts s).time_used ≤ (dur:ℝ) := by
  simp only [returnLeg]
  split_ifs with h1 h2
  · exact h2
  · exact h
  · exact h

/-- The return-to-start block when the leg fits the remaining budget:
the totals include the return distance and time. -/
theorem returnLeg_fit (start : LatLng) (dur : ℤ) (s : LoopState)
    (hlen : 0 < s.route.length)
    (hfit : s.time_used + estimate_walking_time (calculate_distance s.pos start) ≤ (dur:ℝ)) :
    returnLeg start dur true s =
      ⟨s.total_distance + calculate_distance s.pos start,
       s.time_used + estimate_walking_time (calculate_distance s.pos start),
       calculate_distance s.pos start,
       estimate_walking_time (calculate_distance s.pos start)⟩ := by
  simp only [returnLeg]
  rw [if_pos (And.intro trivial hlen), if_pos hfit]

/-- The return-to-start block when the leg does not fit: the totals are
unchanged but the computed return distance and time are still kept. -/
theorem returnLeg_nofit (start : LatLng) (dur : ℤ) (s : LoopState)
    (hlen : 0 < s.route.length)
    (hfit : ¬ s.time_used + estimate_walking_time (calculate_distance s.pos start) ≤ (dur:ℝ)) :
    returnLeg start dur true s =
      ⟨s.total_distance, s.time_used,
       calculate_distance s.pos start,
       estimate_walking_time (calculate_distance s.pos start)⟩ := by
  simp only [returnLeg]
  rw [if_pos (And.intro trivial hlen), if_neg hfit]

/-- C1 (amended): for every start position, candidate list, visit time
and return flag, and every nonnegative duration budget, the accumulated
time_used never exceeds the budget at any point of the selection loop,
and the returned total_time_minutes, which includes the optional return
leg, is at most the budget. -/
theorem C1_nearest_neighbor_budget (start : LatLng) (cands : List POI) (dur visit : ℤ)
    (rts : Bool) (hd : 0 ≤ dur) : budgetObservation start cands dur visit rts := by
  unfold budgetObservation
  constructor
  · intro fuel s0 h0
    exact planLoop_time_le _ _ cands fuel s0 h0
  · have h0 : ((0:ℝ)) ≤ (dur:ℝ) := by exact_mod_cast hd
    have hloop : (planLoopFull start cands dur visit).time_used ≤ (dur:ℝ) := by
      simp only [planLoopFull]
      exact planLoop_time_le _ _ cands cands.length _ h0
    have hpost := returnLeg_time_le start dur rts _ hloop
    simp only [plan_route]
    exact pyRound_le_intCast 1 hpost

/-- Witness for C1: the budget bound instantiated at a concrete
nonnegative budget. -/
theorem C1_budget_witness : (0:ℤ) ≤ 30 ∧ budgetObservation (0, 0) [] 30 5 false :=
  ⟨by decide, C1_nearest_neighbor_budget (0, 0) [] 30 5 false (by decide)⟩

/-- Counterexample to C1 as stated: with a negative duration budget the
empty plan reports total_time_minutes equal to zero, which exceeds the
budget. -/
theorem C1_budget_counterexample :
    ¬ (plan_route (0, 0) [] (-1) 5 false).total_time_minutes ≤ ((-1 : ℤ) : ℝ) := by
  have h : (plan_route (0, 0) [] (-1) 5 false).total_time_minutes = 0 := by
    simp only [plan_route, planLoopFull, planLoop, returnLeg]
    norm_num
    exact pyRound_zero 1
  rw [h]
  norm_num

/-- C2: when the candidate scan of plan_route selects a POI, that POI is
an unvisited candidate with full coordinates at minimum great-circle
distance from the current position, ties are broken in favor of the
first candidate encountered because the comparison is strict, and if the
walking plus visit time of the selection would push time_used over the
budget the loop terminates entirely. -/
theorem C2_nearest_selection (cands : List POI) (s : LoopState) (dur visit : ℤ)
    (fuel : ℕ) (sel : NearSel)
    (hsel : findNearest s.pos s.visited cands none = some sel) :
    nearestSelectionSpec cands s dur visit fuel sel := by
  unfold nearestSelectionSpec
  obtain h1 | ⟨hmem, hvis, hco, hdist⟩ := findNearest_from s.pos s.visited cands none sel hsel
  · exact absurd h1 Option.noConfusion
  obtain ⟨-, hmin⟩ := findNearest_min s.pos s.visited cands none sel hsel
  obtain h2 | ⟨pre, post, hsplit, -, hpre⟩ := findNearest_first s.pos s.visited cands none sel hsel
  · exact absurd h2 Option.noConfusion
  refine ⟨hmem, hvis, hco, hdist, hmin, ⟨pre, post, hsplit, hpre⟩, ?_⟩
  intro hover
  exact planLoop_break _ _ cands fuel s sel hsel hover

/-- Witness for C2: the selection specification at a concrete scan that
selects the only candidate. -/
theorem C2_nearest_selection_witness :
    findNearest ((0:ℝ), (0:ℝ)) [] [poiFar] none =
      some ⟨poiFar, (0, 180), calculate_distance (0, 0) (0, 180)⟩ ∧
    nearestSelectionSpec [poiFar] ⟨[], [], (0, 0), 0, 0⟩ 250000 5 0
      ⟨poiFar, (0, 180), calculate_distance (0, 0) (0, 180)⟩ := by
  have hsel : findNearest ((0:ℝ), (0:ℝ)) [] [poiFar] none =
      some ⟨poiFar, (0, 180), calculate_distance (0, 0) (0, 180)⟩ := rfl
  exact ⟨hsel, C2_nearest_selection [poiFar] ⟨[], [], (0, 0), 0, 0⟩ 250000 5 0 _ hsel⟩

/-- The selection loop on the single far POI with budget 250000 commits
exactly one stop and ends at that POI. -/
theorem planLoopFull_far :
    planLoopFull (0, 0) [poiFar] 250000 5 =
      ⟨[⟨poiFar, 6371 * Real.pi, estimate_walking_time (6371 * Real.pi)⟩],
       ["far"], (0, 180), estimate_walking_time (6371 * Real.pi) + 5, 6371 * Real.pi⟩ := by
  have hsel : findNearest ((0:ℝ), (0:ℝ)) [] [poiFar] none =
      some ⟨poiFar, (0, 180), calculate_distance (0, 0) (0, 180)⟩ := rfl
  have hfit : ¬ (0:ℝ) + (estimate_walking_time (calculate_distance (0, 0) (0, 180)) + (5:ℤ)) >
      ((250000:ℤ):ℝ) := by
    rw [calculate_distance_far]
    simp only [estimate_walking_time, WALKING_SPEED_KMH]
    push_cast
    nlinarith [Real.pi_lt_d2]
  simp only [planLoopFull, List.length_singleton, planLoop, hsel]
  rw [if_neg hfit]
  simp only [planLoop, List.nil_append, zero_add, calculate_distance_far]
  norm_num [poiFar]

/-- C3 (amended): when return to start is requested and the loop added
at least one stop, the return distance and time are added to the totals
exactly when they fit the remaining budget, and return_distance_km
reports the rounded computed return distance in both cases. -/
theorem C3_return_leg (start : LatLng) (cands : List POI) (dur visit : ℤ)
    (h1 : (planLoopFull start cands dur visit).route ≠ []) :
    returnLegObservation start cands dur visit := by
  have hlen : 0 < (planLoopFull start cands dur visit).route.length :=
    List.length_pos.mpr h1
  simp only [returnLegObservation]
  refine ⟨?_, ?_, ?_⟩
  · intro hfit
    simp only [plan_route]
    rw [returnLeg_fit start dur _ hlen hfit]
    exact ⟨rfl, rfl⟩
  · intro hfit
    simp only [plan_route]
    rw [returnLeg_nofit start dur _ hlen hfit]
    exact ⟨rfl, rfl⟩
  · simp only [plan_route]
    by_cases hfit : (planLoopFull start cands dur visit).time_used +
        estimate_walking_time
          (calculate_distance (planLoopFull start cands dur visit).pos start) ≤ (dur:ℝ)
    · rw [returnLeg_fit start dur _ hlen hfit]
      rfl
    · rw [returnLeg_nofit start dur _ hlen hfit]
      rfl

/-- Witness for C3: the return-leg observation at a concrete input whose
loop commits one stop. -/
theorem C3_return_leg_witness :
    (planLoopFull (0, 0) [poiFar] 250000 5).route ≠ [] ∧
    returnLegObservation (0, 0) [poiFar] 250000 5 := by
  have hne : (planLoopFull (0, 0) [poiFar] 250000 5).route ≠ [] := by
    rw [planLoopFull_far]
    simp
  exact ⟨hne, C3_return_leg (0, 0) [poiFar] 250000 5 hne⟩

/-- Counterexample to C3 as stated: at this input the return leg does
not fit the remaining budget, yet the reported return_distance_km is not
zero but the rounded computed return distance. -/
theorem C3_return_leg_counterexample :
    ¬ ((planLoopFull (0, 0) [poiFar] 250000 5).time_used +
        estimate_walking_time
          (calculate_distance (planLoopFull (0, 0) [poiFar] 250000 5).pos (0, 0)) ≤
        ((250000:ℤ):ℝ)) ∧
    (plan_route (0, 0) [poiFar] 250000 5 true).return_distance_km ≠ 0 := by
  have hloop := planLoopFull_far
  have hpos_eq : calculate_distance ((planLoopFull (0, 0) [poiFar] 250000 5).pos) (0, 0) =
      6371 * Real.pi := by
    rw [hloop]
    exact calculate_distance_far_back
  have htime_eq : (planLoopFull (0, 0) [poiFar] 250000 5).time_used =
      estimate_walking_time (6371 * Real.pi) + 5 := by
    rw [hloop]
  have hnofit : ¬ ((planLoopFull (0, 0) [poiFar] 250000 5).time_used +
      estimate_walking_time
        (calculate_distance (planLoopFull (0, 0) [poiFar] 250000 5).pos (0, 0)) ≤
      ((250000:ℤ):ℝ)) := by
    rw [htime_eq, hpos_eq]
    simp only [estimate_walking_time, WALKING_SPEED_KMH]
    push_cast
    nlinarith [Real.pi_gt_d2]
  refine ⟨hnofit, ?_⟩
  have hlen : 0 < (planLoopFull (0, 0) [poiFar] 250000 5).route.length := by
    rw [hloop]
    norm_num
  simp only [plan_route]
  rw [returnLeg_nofit (0, 0) 250000 _ hlen hnofit]
  have hcast : calculate_distance ((planLoopFull (0, 0) [poiFar] 250000 5).pos) ((0:ℝ), (0:ℝ)) =
      6371 * Real.pi := hpos_eq
  rw [hcast]
  have hp : (1:ℝ) ≤ 6371 * Real.pi := by nlinarith [Real.pi_gt_three]
  exact ne_of_gt (pyRound_pos 2 hp)

/-- With a nonpositive budget and a positive visit time, the selection
loop commits no stop from the initial state. -/
theorem planLoop_nonpos_budget (dur visit : ℝ) (hdur : dur ≤ 0) (hv : 0 < visit)
    (cands : List POI) (fuel : ℕ) (start : LatLng) :
    planLoop dur visit cands fuel ⟨[], [], start, 0, 0⟩ = ⟨[], [], start, 0, 0⟩ := by
  cases fuel with
  | zero => simp [planLoop]
  | succ n =>
    simp only [planLoop]
    cases hsel : findNearest start [] cands none with
    | none => rfl
    | some sel =>
      simp only
      rw [if_pos]
      rcases findNearest_from start [] cands none sel hsel with h1 | ⟨-, -, -, hdist⟩
      · exact absurd h1 Option.noConfusion
      have hd0 : 0 ≤ sel.dist := by
        rw [hdist]
        exact calculate_distance_nonneg _ _
      have hw := estimate_walking_time_nonneg hd0
      linarith

/-- C7: plan_route is a total function, and an empty candidate list, or
a zero or negative duration budget with a positive visit time, yields an
empty route with no POIs visited. -/
theorem C7_degrades_gracefully (start : LatLng) (cands : List POI) (dur visit : ℤ)
    (rts : Bool) (h : (dur ≤ 0 ∧ 0 < visit) ∨ cands = []) :
    (plan_route start cands dur visit rts).route = [] ∧
    (plan_route start cands dur visit rts).pois_visited = 0 := by
  have hs : planLoopFull start cands dur visit = ⟨[], [], start, 0, 0⟩ := by
    rcases h with ⟨hdur, hvis⟩ | rfl
    · simp only [planLoopFull]
      refine planLoop_nonpos_budget _ _ ?_ ?_ cands cands.length start
      · exact_mod_cast hdur
      · exact_mod_cast hvis
    · simp [planLoopFull, planLoop]
  constructor
  · simp only [plan_route, hs]
  · simp only [plan_route, hs]
    rfl

/-- Witness for C7: zero budget with the default visit time of five
minutes on a nonempty candidate list yields an empty route. -/
theorem C7_degrades_witness :
    (((0:ℤ) ≤ 0 ∧ (0:ℤ) < 5) ∨ ([poiFar] : List POI) = []) ∧
    (plan_route (0, 0) [poiFar] 0 5 false).route = [] ∧
    (plan_route (0, 0) [poiFar] 0 5 false).pois_visited = 0 :=
  ⟨Or.inl (by decide), C7_degrades_gracefully (0, 0) [poiFar] 0 5 false (Or.inl (by decide))⟩

/-- C9 (amended): the haversine distance is symmetric, and the distance
from any coordinate pair to itself is zero. The only-if direction of the
original claim is false: distinct coordinate pairs can be at distance
zero, see the counterexample. -/
theorem C9_distance_symm_zero (a b : LatLng) :
    calculate_distance a b = calculate_distance b a ∧ calculate_distance a a = 0 :=
  ⟨calculate_distance_symm a b, calculate_distance_self a⟩

/-- Counterexample to C9 as stated: the two distinct coordinate pairs
(90, 0) and (90, 10) both denote the north pole and are at haversine
distance zero, so distance zero does not imply equal pairs. -/
theorem C9_distance_counterexample :
    calculate_distance (90, 0) (90, 10) = 0 ∧ ((90:ℝ), (0:ℝ)) ≠ ((90:ℝ), (10:ℝ)) := by
  constructor
  · have e0 : radians ((90:ℝ) - 90) / 2 = 0 := by unfold radians; ring
    have e9 : radians (90:ℝ) = Real.pi / 2 := by unfold radians; ring
    simp only [calculate_distance]
    rw [e0, e9, Real.sin_zero, Real.cos_pi_div_two]
    norm_num
  · intro h
    have h2 := congrArg Prod.snd h
    norm_num at h2

/-- C5: the popularity score starts from a base of one half, adds three
tenths for nonempty facts and one tenth for nonempty visual cues, takes
the maximum with the source_reliability hint when present, and clamps at
one; consequently the result lies in the unit interval and the hint can
only raise, never lower, the heuristic estimate. -/
theorem C5_popularity_clamped (poi : POI) :
    0 ≤ calculate_popularity_score poi ∧
    calculate_popularity_score poi ≤ 1 ∧
    calculate_popularity_score { poi with source_reliability := none } ≤
      calculate_popularity_score poi ∧
    calculate_popularity_score poi =
      min (match poi.source_reliability with
           | some r => max (0.5 + (if hasFacts poi then 0.3 else 0) +
               (if hasVisualCues poi then 0.1 else 0)) r
           | none => 0.5 + (if hasFacts poi then 0.3 else 0) +
               (if hasVisualCues poi then 0.1 else 0)) 1 := by
  obtain ⟨pid, geo, vt, facts, vc, sr⟩ := poi
  simp only [calculate_popularity_score, hasFacts, hasVisualCues]
  cases sr with
  | none =>
    dsimp only
    refine ⟨?_, ?_, ?_, ?_⟩ <;> split_ifs <;> norm_num
  | some r =>
    dsimp only
    refine ⟨?_, ?_, ?_, ?_⟩
    · split_ifs <;>
        · rw [le_min_iff, le_max_iff]
          norm_num
    · split_ifs <;> exact le_trans (min_le_right _ _) (by norm_num)
    · split_ifs <;> exact min_le_min (le_max_left _ _) (le_refl _)
    · split_ifs <;> norm_num

/-- C6: requesting preference-scored planning without the scoring
capability yields the configuration error, never a silent fallback; with
the capability present the call always returns an ok result, so this is
the only hard failure mode of the planner. -/
theorem C6_scorer_required :
    (∀ (start : LatLng) (cands : List POI) (dur : ℤ) (profile : String) (visit : ℤ)
        (rts : Bool) (w : Option Weights),
      plan_route_with_preferences none start cands dur profile visit rts w =
        Except.error "poi_scorer module required for preference-based routing") ∧
    (∀ (f : ScoreFn) (start : LatLng) (cands : List POI) (dur : ℤ) (profile : String)
        (visit : ℤ) (rts : Bool) (w : Option Weights),
      ∃ r, plan_route_with_preferences (some f) start cands dur profile visit rts w =
        Except.ok r) := by
  constructor
  · intro start cands dur profile visit rts w
    rfl
  · intro f start cands dur profile visit rts w
    exact ⟨_, rfl⟩

/-- C8: a profile name absent from the registry is resolved to the
casual_tourist interests, so rank_pois behaves as for casual_tourist and
the preference planner produces the same result up to the echoed profile
name; no error is surfaced. -/
theorem C8_profile_fallback (p : String) (hp : USER_PROFILES.lookup p = none)
    (cands : List POI) (pos : LatLng) (w : Option Weights) (n : Option ℕ)
    (sf : Option ScoreFn) (start : LatLng) (dur visit : ℤ) (rts : Bool) :
    interestsFor p = interestsFor "casual_tourist" ∧
    rank_pois cands p pos w n = rank_pois cands "casual_tourist" pos w n ∧
    plan_route_with_preferences sf start cands dur p visit rts w =
      (plan_route_with_preferences sf start cands dur "casual_tourist" visit rts w).map
        (fun r => { r with user_profile := p }) := by
  have hint : interestsFor p = interestsFor "casual_tourist" := by
    unfold interestsFor
    rw [hp]
    rfl
  refine ⟨hint, ?_, ?_⟩
  · unfold rank_pois
    rw [hint]
  · unfold plan_route_with_preferences
    cases sf with
    | none => rfl
    | some f =>
      rw [hint]
      simp only [Except.map]
      congr 1

/-- Witness for C8: the fallback at the unregistered profile name
speed_runner on concrete arguments. -/
theorem C8_profile_fallback_witness :
    USER_PROFILES.lookup "speed_runner" = none ∧
    (interestsFor "speed_runner" = interestsFor "casual_tourist" ∧
     rank_pois [] "speed_runner" (0, 0) none none =
       rank_pois [] "casual_tourist" (0, 0) none none ∧
     plan_route_with_preferences none (0, 0) [] 10 "speed_runner" 5 false none =
       (plan_route_with_preferences none (0, 0) [] 10 "casual_tourist" 5 false none).map
         (fun r => { r with user_profile := "speed_runner" })) :=
  ⟨rfl, C8_profile_fallback "speed_runner" rfl [] (0, 0) none none none (0, 0) 10 5 false⟩

/-- C10: a candidate whose geo has lat but no lng passes the lat-only
eligibility check of rank_pois and makes the unguarded lng lookup in
score_poi raise, so the whole rank_pois call fails; the planners exclude
the same candidate by also checking lng and degrade to an empty route. -/
theorem C10_lat_only_keyerror :
    latCheck poiLatOnly = true ∧
    score_poi poiLatOnly (interestsFor "casual_tourist") (0, 0) none = none ∧
    rank_pois [poiLatOnly] "casual_tourist" (0, 0) none none = none ∧
    findNearest (0, 0) [] [poiLatOnly] none = none ∧
    (plan_route (0, 0) [poiLatOnly] 100 5 false).route = [] ∧
    (plan_route (0, 0) [poiLatOnly] 100 5 false).pois_visited = 0 :=
  ⟨rfl, rfl, rfl, rfl, rfl, rfl⟩

/-- Counterexample to C4 as stated: this candidate lacks valid
coordinates, so by the claim it should be excluded and an empty ranking
returned, but rank_pois instead aborts with a KeyError, returning no
list at all. -/
theorem C4_rank_pois_counterexample :
    rank_pois [poiLatOnly2] "history_lover" (0, 0) none none = none := rfl

/-- Inserting into the stable descending sort permutes consing. -/
theorem insertDesc_perm (x : ScoredPoi) : ∀ l, (insertDesc x l).Perm (x :: l) := by
  intro l
  induction l with
  | nil => simp [insertDesc]
  | cons y ys ih =>
    simp only [insertDesc]
    by_cases hc : y.score > x.score
    · rw [if_pos hc]
      exact List.Perm.trans (ih.cons y) (List.Perm.swap x y ys)
    · rw [if_neg hc]

/-- The stable descending sort permutes its input. -/
theorem sortDesc_perm : ∀ l : List ScoredPoi, (sortDesc l).Perm l := by
  intro l
  induction l with
  | nil => simp [sortDesc]
  | cons y ys ih =>
    simp only [sortDesc]
    exact List.Perm.trans (insertDesc_perm y (sortDesc ys)) (ih.cons y)

/-- Insertion preserves descending sortedness by score. -/
theorem sorted_insertDesc (x : ScoredPoi) :
    ∀ l, List.Sorted (fun a b => b.score ≤ a.score) l →
      List.Sorted (fun a b => b.score ≤ a.score) (insertDesc x l) := by
  intro l
  induction l with
  | nil =>
    intro _
    simp [insertDesc]
  | cons y ys ih =>
    intro h
    rw [List.sorted_cons] at h
    obtain ⟨hy, hys⟩ := h
    simp only [insertDesc]
    by_cases hc : y.score > x.score
    · rw [if_pos hc]
      rw [List.sorted_cons]
      constructor
      · intro b hb
        have hb3 : b ∈ x :: ys := (insertDesc_perm x ys).mem_iff.mp hb
        rcases List.mem_cons.mp hb3 with rfl | hb2
        · exact le_of_lt hc
        · exact hy b hb2
      · exact ih hys
    · rw [if_neg hc]
      rw [List.sorted_cons]
      constructor
      · intro b hb
        rcases List.mem_cons.mp hb with rfl | hb2
        · exact not_lt.mp hc
        · exact le_trans (hy b hb2) (not_lt.mp hc)
      · exact List.sorted_cons.mpr ⟨hy, hys⟩

/-- The stable descending sort is sorted descending by score. -/
theorem sortDesc_sorted : ∀ l : List ScoredPoi,
    List.Sorted (fun a b => b.score ≤ a.score) (sortDesc l) := by
  intro l
  induction l with
  | nil => simp [sortDesc]
  | cons y ys ih =>
    simp only [sortDesc]
    exact sorted_insertDesc y _ ih

/-- Stability of insertion: filtering the insertion into a sorted list
at any fixed score keeps the inserted element in front of the equal-score
block and everything else in place. -/
theorem filter_insertDesc (s : ℝ) (x : ScoredPoi) :
    ∀ l, List.Sorted (fun a b => b.score ≤ a.score) l →
      (insertDesc x l).filter (fun z => decide (z.score = s)) =
        if x.score = s then x :: l.filter (fun z => decide (z.score = s))
        else l.filter (fun z => decide (z.score = s)) := by
  intro l
  induction l with
  | nil =>
    intro _
    by_cases hx : x.score = s
    · rw [if_pos hx]
      simp [insertDesc, List.filter_cons, hx]
    · rw [if_neg hx]
      simp [insertDesc, List.filter_cons, hx]
  | cons y ys ih =>
    intro h
    rw [List.sorted_cons] at h
    obtain ⟨hy, hys⟩ := h
    simp only [insertDesc]
    by_cases hc : y.score > x.score
    · rw [if_pos hc]
      by_cases hx : x.score = s
      · rw [if_pos hx]
        have hyne : ¬ y.score = s := by
          rw [← hx]
          exact ne_of_gt hc
        simp only [List.filter_cons, decide_eq_true_eq]
        rw [if_neg hyne, if_neg hyne, ih hys, if_pos hx]
      · rw [if_neg hx]
        simp only [List.filter_cons, decide_eq_true_eq]
        rw [ih hys, if_neg hx]
    · rw [if_neg hc]
      simp only [List.filter_cons, decide_eq_true_eq]

/-- Stability of the sort: filtering at any fixed score gives the same
sequence as filtering the input, so equal-score elements keep their
input order. -/
theorem filter_sortDesc (s : ℝ) : ∀ l : List ScoredPoi,
    (sortDesc l).filter (fun z => decide (z.score = s)) =
      l.filter (fun z => decide (z.score = s)) := by
  intro l
  induction l with
  | nil => simp [sortDesc]
  | cons y ys ih =>
    simp only [sortDesc]
    rw [filter_insertDesc s y _ (sortDesc_sorted ys), List.filter_cons]
    by_cases hx : y.score = s
    · rw [if_pos hx, ih]
      simp [hx]
    · rw [if_neg hx, ih]
      simp [hx]

/-- Scoring a POI with full coordinates succeeds and records the POI
itself in the result. -/
theorem score_poi_some {poi : POI} (i : List String) (pos : LatLng) (w : Option Weights)
    (h : (coordsOf poi).isSome = true) :
    ∃ sp, score_poi poi i pos w = some sp ∧ sp.poi = poi := by
  obtain ⟨c, hc⟩ := Option.isSome_iff_exists.mp h
  simp only [score_poi, hc]
  exact ⟨_, rfl, rfl⟩

/-- When every lat-eligible candidate carries full coordinates, the
scoring pass of rank_pois succeeds and scores exactly the lat-eligible
candidates in input order. -/
theorem scoreAll_ok (i : List String) (pos : LatLng) (w : Option Weights) :
    ∀ l : List POI, (∀ p ∈ l, latCheck p = true → (coordsOf p).isSome = true) →
      ∃ S, scoreAll l i pos w = some S ∧
        S.map (fun x => x.poi) = l.filter latCheck := by
  intro l
  induction l with
  | nil =>
    intro _
    exact ⟨[], rfl, rfl⟩
  | cons p rest ih =>
    intro h
    obtain ⟨S, hS, hmap⟩ := ih (fun q hq => h q (List.mem_cons_of_mem _ hq))
    by_cases hl : latCheck p = true
    · have hc : (coordsOf p).isSome = true := h p (List.mem_cons_self _ _) hl
      obtain ⟨sp, hsp, hpoi⟩ := score_poi_some i pos w hc
      refine ⟨sp :: S, ?_, ?_⟩
      · simp only [scoreAll, if_pos hl, hsp, hS, Option.map_some']
      · simp only [List.map_cons, hmap, hpoi, List.filter_cons, hl]
        rw [if_pos trivial]
    · refine ⟨S, ?_, ?_⟩
      · simp only [scoreAll, if_neg hl, hS]
      · rw [List.filter_cons]
        simp only [hmap]
        rw [if_neg hl]

/-- C4 (amended): on a candidate list whose lat-eligible members all
carry full coordinates, rank_pois scores every eligible candidate and
returns them sorted descending by score with ties kept in input order;
top_n truncates the result to at most top_n entries, and without top_n
all eligible candidates are returned. -/
theorem C4_rank_pois (cands : List POI) (profile : String) (pos : LatLng)
    (w : Option Weights)
    (h : ∀ poi ∈ cands, latCheck poi = true → (coordsOf poi).isSome = true) :
    rankedObservation cands profile pos w := by
  unfold rankedObservation
  obtain ⟨S, hS, hmap⟩ := scoreAll_ok (interestsFor profile) pos w cands h
  refine ⟨S, sortDesc S, hS, ?_, hmap, sortDesc_sorted S, sortDesc_perm S, ?_, ?_⟩
  · simp only [rank_pois, hS]
  · intro sc
    exact filter_sortDesc sc S
  · intro n
    constructor
    · simp only [rank_pois, hS]
    · rw [List.length_take]
      exact min_le_left _ _

/-- Witness for C4: the ranking observation on a single fully-located
candidate. -/
theorem C4_rank_pois_witness :
    (∀ poi ∈ [poiFar], latCheck poi = true → (coordsOf poi).isSome = true) ∧
    rankedObservation [poiFar] "nature_seeker" (0, 0) none := by
  have h : ∀ poi ∈ [poiFar], latCheck poi = true → (coordsOf poi).isSome = true := by
    intro poi hm
    rw [List.mem_singleton] at hm
    subst hm
    intro _
    rfl
  exact ⟨h, C4_rank_pois [poiFar] "nature_seeker" (0, 0) none h⟩

end WalkingTour
